import Mathlib

/-!
Verification of the AI-Review-System orchestration layer.

This file gives a shallow embedding, in Lean 4, of the parts of the
repository relevant to the frozen claims: the PDF validation gate
(`papersearch.py` / `text_extraction.py`), the tenacity retry policy,
the download stage, raw-text extraction, the text-chunking and
filename-sanitizing utilities (`utils.py`), the Gradio pipeline stages
(`app.py`), and the LLM fallback chains (`paper_analyzer.py` /
`draft_generator.py`).  The revision-loop controller nodes referenced by
`pipeline.py` are not present in the repository sources and are modelled
from the specification, as marked in their doc comments.

Files are modelled as records of the observations the Python code makes
about them (existence, extension, byte content, read failure); external
collaborators (HTTP, the LLM completion service, the PDF parser) are
modelled as explicit oracle parameters giving the outcome of each call.
-/

namespace AIReview

/-! ## Validation gate (papersearch.PaperSearcher.validate_pdf and
    text_extraction.TextExtractor.validate_pdf) -/

/-- A file as observed by `validate_pdf`: whether `file_path.exists()`,
the `file_path.suffix`, the byte content (`stat().st_size` is its
length, `f.read(4)` its first four bytes), and whether opening/reading
the file raises. -/
structure PdfFile where
  present : Bool
  suffix : String
  content : List Nat
  readError : Bool
deriving DecidableEq

/-- The PDF magic header bytes, `b'%PDF'`. -/
def pdfMagic : List Nat := [0x25, 0x50, 0x44, 0x46]

/-- Embedding of Python `str.lower()` (characterwise; the relevant
comparisons are against the ASCII literal `".pdf"`). -/
def strLower (s : String) : String := ⟨s.data.map Char.toLower⟩

namespace PaperSearcher

/-- Embedding of `PaperSearcher.validate_pdf` (papersearch.py lines
45-81): exists, then extension `.pdf` (case-insensitive), then
non-empty size, then the first four bytes must equal `%PDF`; a read
error yields `False`. -/
def validate_pdf (f : PdfFile) : Bool :=
  if f.present = false then false
  else if strLower f.suffix ≠ ".pdf" then false
  else if f.content.length = 0 then false
  else if f.readError then false
  else decide (f.content.take 4 = pdfMagic)

end PaperSearcher

namespace TextExtractor

/-- Embedding of `TextExtractor.validate_pdf` (text_extraction.py lines
32-68); the code is character-for-character the same checks as
`PaperSearcher.validate_pdf`. -/
def validate_pdf (f : PdfFile) : Bool :=
  if f.present = false then false
  else if strLower f.suffix ≠ ".pdf" then false
  else if f.content.length = 0 then false
  else if f.readError then false
  else decide (f.content.take 4 = pdfMagic)

end TextExtractor

/-! ## Retry policy (tenacity wrappers on `search_papers` / `download_pdf`) -/

/-- Embedding of tenacity's `wait_exponential(multiplier, min, max)`:
the delay after attempt number `n` (1-based) is
`max(min, min(multiplier * 2 ^ n, max))`. -/
def wait_exponential (multiplier mn mx : Nat) (attemptNumber : Nat) : Nat :=
  Nat.max mn (Nat.min (multiplier * 2 ^ attemptNumber) mx)

/-- Embedding of a tenacity `@retry(stop=stop_after_attempt maxAttempts)`
loop, for `maxAttempts ≥ 1`: attempts are numbered from `attempt`;
`op n` is the outcome of attempt `n` (`none` = the call raised).
Returns the number of attempts actually made together with the final
outcome; exhaustion (`none`) models the raised `RetryError`. -/
def retryFrom {α : Type} (op : Nat → Option α) (attempt : Nat) : Nat → Nat × Option α
  | 0 => (0, none)
  | fuel + 1 =>
    match op attempt with
    | some a => (1, some a)
    | none =>
      if fuel = 0 then (1, none)
      else
        let r := retryFrom op (attempt + 1) fuel
        (r.1 + 1, r.2)

/-- Run a retried operation with a total attempt budget, attempts
numbered from 1 as in tenacity. -/
def retryExec {α : Type} (op : Nat → Option α) (maxAttempts : Nat) : Nat × Option α :=
  retryFrom op 1 maxAttempts

/-! ## utils.sanitize_filename -/

/-- The characters removed by `re.sub(r'[<>:"/\\|?*]', '_', filename)`. -/
def invalidChars : List Char := ['<', '>', ':', '"', '/', '\\', '|', '?', '*']

/-- Substitution performed by the `re.sub` call: each invalid character
becomes an underscore. -/
def sanitizeChar (c : Char) : Char := if c ∈ invalidChars then '_' else c

/-- The over-length branch of `sanitize_filename`: rebuild the name as
`name[:195] + '...' + ('.' + ext if ext else '')` where
`name, ext = filename.rsplit('.', 1)` when a dot is present (otherwise
`name` is the whole string and `ext` is empty). -/
def truncateName (cleaned : List Char) : List Char :=
  if '.' ∈ cleaned then
    let extPart := (cleaned.reverse.takeWhile (fun c => c ≠ '.')).reverse
    let namePart := ((cleaned.reverse.dropWhile (fun c => c ≠ '.')).drop 1).reverse
    namePart.take 195 ++ ['.', '.', '.'] ++
      (if extPart.isEmpty then [] else '.' :: extPart)
  else cleaned.take 195 ++ ['.', '.', '.']

/-- Embedding of `utils.sanitize_filename` (utils.py lines 103-112):
substitute invalid characters, then, when the result exceeds 200
characters, truncate via the rsplit/ellipsis rebuild. -/
def sanitize_filename (s : String) : String :=
  let cleaned := s.data.map sanitizeChar
  if cleaned.length > 200 then ⟨truncateName cleaned⟩ else ⟨cleaned⟩

/-- Length of the extension of a filename: the segment after the last
dot, empty when no dot occurs. -/
def extLen (s : String) : Nat :=
  if '.' ∈ s.data then (s.data.reverse.takeWhile (fun c => c ≠ '.')).length else 0

/-- Boolean check that a string contains no filesystem-invalid
character. -/
def noInvalid (s : String) : Bool :=
  s.data.all (fun c => decide (c ∉ invalidChars))

/-! ## Revision loop controller (pipeline.py build_pipeline, lines 142-153)

`pipeline.py` wires `aggregate_paper → critique_paper`, a conditional
edge dispatching on `revise_node` to `revise_paper` or `final_draft`,
and the back edge `revise_paper → critique_paper`.  The node functions
`revise_node` / `revise_paper_node` themselves are imported from
`.draft_generator`, which in the repository sources does not define
them; they are modelled from the specification below. -/

/-- The revision cap (spec: "revision_count never exceeds a fixed cap
(2 in the reference behavior)"; pipeline.py line 151: "loop with max 2
iterations enforced in revise_node"). -/
def revisionCap : Nat := 2

/-- The revision-relevant slice of `PaperState`. -/
structure RevState where
  revision_count : Nat
deriving DecidableEq

/-- Modelled from the spec: `revise_node` (missing from
src/draft_generator.py, imported by pipeline.py) returns the branch
key for the conditional edge — "after critique, if `revision_count <
cap` AND the critique signals inadequate quality → go to
`revise_paper`; else → `final_draft`". `inadequate` is the
critique-quality signal for the current draft. -/
def revise_node (inadequate : Bool) (s : RevState) : String :=
  if s.revision_count < revisionCap ∧ inadequate = true then "revise_paper"
  else "final_draft"

/-- Modelled from the spec: `revise_paper_node` (missing from
src/draft_generator.py) "increments `revision_count`, rewrites
`aggregated_draft` using the critique feedback, and unconditionally
transitions back to `critique_paper`". -/
def revise_paper_node (s : RevState) : RevState :=
  { s with revision_count := s.revision_count + 1 }

/-- Execution of the critique/revise cycle of the compiled graph
starting at `critique_paper` with `revision_count = rc`: the critique
outcome at each evaluation is given by the oracle `inadequate`
(indexed by the current revision count).  Returns the number of
critique evaluations and the number of entries into `revise_paper`
before the graph reaches `final_draft`. -/
def critiqueLoop (inadequate : Nat → Bool) (rc : Nat) : Nat × Nat :=
  if h : rc < revisionCap ∧ inadequate rc = true then
    let r := critiqueLoop inadequate (rc + 1)
    (r.1 + 1, r.2 + 1)
  else (1, 0)
termination_by revisionCap - rc
decreasing_by
  simp_wf
  omega

/-- Critique evaluations performed by `run_generate_only`
(pipeline.py lines 257-262): one critique, one `revise_node` decision,
and at most one revise/re-critique before `final_draft_node`. -/
def run_generate_only_critique_evals (inadequate : Nat → Bool) (rc : Nat) : Nat :=
  if revise_node (inadequate rc) ⟨rc⟩ = "revise_paper" then 2 else 1

/-! ## Download stage (papersearch.PaperSearcher.download_pdf, lines 143-207) -/

/-- Observable outcome of one `download_pdf` invocation: the file at
the deterministic target path `save_dir / f"{safe_title}.pdf"` after
the call, whether a path was returned (`Some path` vs `None`), and
whether any network request was issued. -/
structure DownloadResult where
  post : Option PdfFile
  returned : Bool
  netUsed : Bool
deriving DecidableEq

/-- The part of `download_pdf` after the existing-file check: issue the
GET (`net` is its outcome; `Except.error` models a
`requests.exceptions.RequestException`, possibly mid-stream), write the
body to the target path, validate, and delete the file when the
download failed (partial file) or validation fails. `pathSuffix` is
`Path(pdf_path).suffix` of the target path. -/
def download_fresh (pathSuffix : String) (net : Except Unit (List Nat)) : DownloadResult :=
  match net with
  | .error _ => ⟨none, false, true⟩
  | .ok content =>
    let f : PdfFile :=
      { present := true, suffix := pathSuffix, content := content, readError := false }
    if PaperSearcher.validate_pdf f then ⟨some f, true, true⟩
    else ⟨none, false, true⟩

/-- Embedding of `PaperSearcher.download_pdf`: `pre` is the file
already at the target path (if any).  An existing file that validates
is returned without any network request; an existing file that fails
validation is unlinked before the fresh download. -/
def download_pdf (pre : Option PdfFile) (pathSuffix : String)
    (net : Except Unit (List Nat)) : DownloadResult :=
  match pre with
  | some f =>
    if PaperSearcher.validate_pdf f then ⟨some f, true, false⟩
    else download_fresh pathSuffix net
  | none => download_fresh pathSuffix net

/-! ## Raw text extraction (text_extraction.TextExtractor.extract_raw_text,
    lines 70-111) -/

/-- Embedding of Python `str.strip()` with no argument: remove leading
and trailing whitespace characters. -/
def pyStrip (s : String) : String :=
  ⟨((s.data.dropWhile Char.isWhitespace).reverse.dropWhile Char.isWhitespace).reverse⟩

/-- Embedding of `extract_raw_text`: validate first (raising
`TextExtractionError` on failure; the path interpolated into the
message is elided); then keep, in page order, the texts of the pages
whose `text.strip()` is non-empty (`pageTexts` is the oracle for
`page.get_text("text")` per page); raise when no page qualifies
(re-wrapped by the enclosing handler), else return the pages joined
with `"\n\n"`.  `Except.error` models a raised `TextExtractionError`. -/
def extract_raw_text (f : PdfFile) (pageTexts : List String) : Except String String :=
  if TextExtractor.validate_pdf f = false then
    .error "File is not a valid PDF"
  else
    let pages := pageTexts.filter (fun t => pyStrip t ≠ "")
    if pages.isEmpty then .error "Text extraction failed: No text extracted from PDF"
    else .ok (String.intercalate "\n\n" pages)

/-! ## LLM fallback chains (paper_analyzer.PaperAnalyzer.extract_insights,
    lines 141-208, and draft_generator.DraftGenerator.generate_draft,
    lines 97-133) -/

/-- Outcome of one `client.models.generate_content` call in the
fallback loop: the call raised, or returned a response whose `.text`
is the given string (`""` models an empty/`None` text). -/
inductive ModelResponse where
  | exn : ModelResponse
  | text : String → ModelResponse
deriving DecidableEq

/-- The insight record produced by `extract_insights`, restricted to
the four required fields the code guarantees. -/
structure Insights where
  key_findings : List String
  contributions : List String
  limitations : List String
  future_work : List String
deriving DecidableEq

/-- Embedding of `PaperAnalyzer._get_default_insights` (lines 201-208):
the payload returned when analysis fails.  Note that `key_findings` is
a one-element placeholder list, not the empty list. -/
def get_default_insights : Insights :=
  { key_findings := ["Analysis temporarily unavailable - API issue"],
    contributions := [], limitations := [], future_work := [] }

/-- A parsed `safe_json_loads` result, restricted to the required
fields: `none` models a missing key, `some l` a present list value
(`safe_json_loads` itself never raises; unparseable text yields the
empty dict, i.e. all fields `none`). -/
structure RawInsights where
  key_findings : Option (List String)
  contributions : Option (List String)
  limitations : Option (List String)
  future_work : Option (List String)
deriving DecidableEq

/-- The required-field defaulting loop of `extract_insights` (lines
187-190): a missing or falsy (empty) field becomes `[]`. -/
def ensure_required (r : RawInsights) : Insights :=
  { key_findings := r.key_findings.getD [],
    contributions := r.contributions.getD [],
    limitations := r.limitations.getD [],
    future_work := r.future_work.getD [] }

/-- The fallback loop of `extract_insights`: an exception or an empty
response text advances to the next model; the first non-empty text is
parsed (`parse` is the oracle for `safe_json_loads` on the response)
and returned after required-field defaulting; exhaustion falls through
to the default payload. -/
def extract_insights_loop (parse : String → RawInsights) :
    List ModelResponse → Insights
  | [] => get_default_insights
  | .exn :: rest => extract_insights_loop parse rest
  | .text t :: rest =>
    if t = "" then extract_insights_loop parse rest
    else ensure_required (parse t)

/-- Embedding of `PaperAnalyzer.extract_insights`: when no section has
content (`not any(sections.values())`) the default payload is returned
immediately; otherwise the fallback chain runs.  This function only
returns; it never raises. -/
def extract_insights (sections : List (String × String))
    (parse : String → RawInsights) (responses : List ModelResponse) : Insights :=
  if sections.all (fun kv => kv.2 = "") then get_default_insights
  else extract_insights_loop parse responses

/-- Embedding of `DraftGenerator.generate_draft`: the first model
whose response text is non-empty wins; exhaustion raises
`DraftGenerationError("All models failed to generate draft")`,
modelled as `Except.error`. -/
def generate_draft : List ModelResponse → Except String String
  | [] => .error "All models failed to generate draft"
  | .exn :: rest => generate_draft rest
  | .text t :: rest => if t = "" then generate_draft rest else .ok t

/-- Result dictionary of `DraftGenerator.generate_review`
(lines 149-182). -/
structure ReviewResult where
  success : Bool
  message : String
  draft : Option String
  draft_path : Option String
  num_papers : Option Nat
deriving DecidableEq

/-- Embedding of `DraftGenerator.generate_review`: no successful
analyses yields a failure record; otherwise `generate_draft` is
called, its exception (including the tenacity retry wrapper's
re-raise, whose exact display text is elided in `message`) is caught
and converted to a failure record, and success saves the draft
(`savedPath` is the timestamped output path). -/
def generate_review (numAnalyses : Nat) (responses : List ModelResponse)
    (savedPath : String) : ReviewResult :=
  if numAnalyses = 0 then
    ⟨false, "No successful analysis files found", none, none, none⟩
  else
    match generate_draft responses with
    | .ok d =>
      ⟨true, "Successfully generated draft from " ++ toString numAnalyses ++ " papers",
        some d, some savedPath, some numAnalyses⟩
    | .error e =>
      ⟨false, "Draft generation failed: " ++ e, none, none, none⟩

/-! ## utils.chunk_text (utils.py lines 51-76)

Strings are handled through their character lists.  `splitPara` embeds
Python's `text.split('\n\n')` (left-to-right scan for non-overlapping
occurrences of the two-newline separator) and `joinPara` embeds
`'\n\n'.join(...)`. -/

/-- Embedding of Python `text.split('\n\n')` on character lists. -/
def splitPara : List Char → List (List Char)
  | [] => [[]]
  | '\n' :: '\n' :: rest => [] :: splitPara rest
  | c :: rest =>
    match splitPara rest with
    | [] => [[c]]
    | h :: t => (c :: h) :: t

/-- Embedding of Python `'\n\n'.join(parts)` on character lists. -/
def joinPara : List (List Char) → List Char
  | [] => []
  | [x] => x
  | x :: xs => x ++ '\n' :: '\n' :: joinPara xs

/-- The accumulation loop of `chunk_text`: `tok` is the oracle for
`count_tokens` on a paragraph, `current` the pending chunk (in order)
and `curTok` its token count.  A paragraph that would overflow the
budget flushes the pending non-empty chunk first; the trailing chunk
is flushed after the loop when non-empty. -/
def chunkAux (tok : List Char → Nat) (maxTokens : Nat) :
    List (List Char) → List (List Char) → Nat → List (List Char)
  | [], current, _ => if current = [] then [] else [joinPara current]
  | p :: rest, current, curTok =>
    let pt := tok p
    if curTok + pt > maxTokens ∧ current ≠ [] then
      joinPara current :: chunkAux tok maxTokens rest [p] pt
    else
      chunkAux tok maxTokens rest (current ++ [p]) (curTok + pt)

/-- Embedding of `utils.chunk_text`: split the text into paragraphs at
`"\n\n"` and regroup consecutive paragraphs into chunks of
approximately `maxTokens` tokens. -/
def chunk_text (tok : String → Nat) (text : String) (maxTokens : Nat) : List String :=
  (chunkAux (fun cs => tok ⟨cs⟩) maxTokens (splitPara text.data) [] 0).map String.mk

/-! ## Gradio pipeline stages (app.py)

The `PipelineState` TypedDict and the stage nodes `extract_node`,
`analyze_node`, `draft_node`, `finalize_node`.  The wall-clock fields
`start_time` and `stage_times` and the timestamp prefix of
`format_progress_message` are elided (real time); neither is written
on the short-circuit paths.  Collaborator calls are oracle
parameters. -/

/-- The icon table of `utils.format_progress_message`. -/
def progressIcons : List (String × String) :=
  [("start", "🚀"), ("search", "🔍"), ("download", "📥"), ("extract", "📄"),
   ("analyze", "🔬"), ("draft", "✍️"), ("complete", "✅"), ("error", "❌"),
   ("warning", "⚠️")]

/-- Embedding of `utils.format_progress_message` (timestamp elided). -/
def format_progress_message (step status details : String) : String :=
  let icon := (progressIcons.lookup step.toLower).getD "•"
  let message := icon ++ " " ++ status
  if details ≠ "" then message ++ "\n   📌 " ++ details else message

/-- Embedding of the `PipelineState` TypedDict of app.py (lines 38-67),
minus the wall-clock fields.  Paper records are abstracted to their
titles; only the identity of the list matters to the modelled
stages. -/
structure PipelineState where
  topic : String
  papers : List String
  search_success : Bool
  search_message : String
  extracted_paths : List String
  extraction_success : Bool
  extraction_message : String
  analysis_paths : List String
  analysis_success : Bool
  analysis_message : String
  draft : Option String
  draft_path : Option String
  draft_success : Bool
  draft_message : String
  error : Option String
  progress : List String
deriving DecidableEq

/-- Embedding of `extract_node` (app.py lines 135-175).
`extractResult` is the oracle for `TextExtractor.process_all_pdfs`
(`Except.error` = the call raised; the message shows the exception).
A non-empty `error` short-circuits before any write. -/
def extract_node (extractResult : Except String (List String))
    (s : PipelineState) : PipelineState :=
  if s.error.isSome then s
  else
    match extractResult with
    | .error e =>
      { s with
        error := some e,
        progress := s.progress ++
          [format_progress_message "extract" "Extracting text from PDFs..." "",
           format_progress_message "error" ("Extraction failed: " ++ e) ""] }
    | .ok saved =>
      let s1 := { s with
        progress := s.progress ++
          [format_progress_message "extract" "Extracting text from PDFs..." ""],
        extracted_paths := saved,
        extraction_success := decide (saved.length > 0),
        extraction_message := "Extracted " ++ toString saved.length ++ " papers" }
      if saved.isEmpty then
        { s1 with
          error := some "No text extracted from any PDF",
          progress := s1.progress ++
            [format_progress_message "error" "Failed to extract text from any PDF" ""] }
      else
        { s1 with
          progress := s1.progress ++
            [format_progress_message "complete"
              ("Successfully extracted text from " ++ toString saved.length ++ " papers") ""] ++
            (saved.take 3).map (fun p => "   📄 " ++ p) }

/-- Embedding of `analyze_node` (app.py lines 177-217); `analyzeResult`
is the oracle for `PaperAnalyzer.process_all_papers`. -/
def analyze_node (analyzeResult : Except String (List String))
    (s : PipelineState) : PipelineState :=
  if s.error.isSome then s
  else
    match analyzeResult with
    | .error e =>
      { s with
        error := some e,
        progress := s.progress ++
          [format_progress_message "analyze" "Analyzing papers with Gemini AI..." "",
           format_progress_message "error" ("Analysis failed: " ++ e) ""] }
    | .ok paths =>
      let s1 := { s with
        progress := s.progress ++
          [format_progress_message "analyze" "Analyzing papers with Gemini AI..." ""],
        analysis_paths := paths,
        analysis_success := decide (paths.length > 0),
        analysis_message := "Analyzed " ++ toString paths.length ++ " papers" }
      if paths.isEmpty then
        { s1 with
          error := some "No papers successfully analyzed",
          progress := s1.progress ++
            [format_progress_message "error" "Failed to analyze any papers" ""] }
      else
        { s1 with
          progress := s1.progress ++
            [format_progress_message "complete"
              ("Successfully analyzed " ++ toString paths.length ++ " papers") ""] ++
            (paths.take 3).map (fun p => "   🔬 " ++ p) }

/-- Embedding of `draft_node` (app.py lines 219-261); `reviewResult` is
the oracle for `DraftGenerator.generate_review` (`Except.error` = the
call raised). -/
def draft_node (reviewResult : Except String ReviewResult)
    (s : PipelineState) : PipelineState :=
  if s.error.isSome then s
  else
    match reviewResult with
    | .error e =>
      { s with
        error := some e,
        progress := s.progress ++
          [format_progress_message "draft" "Generating research review draft..." "",
           format_progress_message "error" ("Draft generation failed: " ++ e) ""] }
    | .ok r =>
      let s1 := { s with
        progress := s.progress ++
          [format_progress_message "draft" "Generating research review draft..." ""],
        draft_success := r.success,
        draft_message := r.message }
      if r.success then
        let d := (r.draft.getD "")
        let preview := if d.length > 200 then d.take 200 ++ "..." else d
        { s1 with
          draft := r.draft,
          draft_path := r.draft_path,
          progress := s1.progress ++
            [format_progress_message "complete"
              ("Draft generated successfully: " ++ (r.draft_path.getD "")) "",
             "   📝 Preview: " ++ preview] }
      else
        { s1 with
          error := some r.message,
          progress := s1.progress ++
            [format_progress_message "error"
              ("Draft generation failed: " ++ r.message) ""] }

/-- The 50-character separator line printed by `finalize_node`. -/
def summarySeparator : String := ⟨List.replicate 50 '='⟩

/-- Embedding of `finalize_node` (app.py lines 263-283): it runs
unconditionally and appends the terminal summary to `progress`
(the wall-clock total-time and per-stage-time lines are elided). -/
def finalize_node (s : PipelineState) : PipelineState :=
  let p := s.progress ++
    ["\n" ++ summarySeparator, "📊 PIPELINE SUMMARY", summarySeparator]
  match s.error with
  | some e =>
    { s with progress := p ++ ["❌ Status: Failed", "⚠️ Error: " ++ e] }
  | none =>
    { s with progress := p ++
        ["✅ Status: Completed Successfully",
         "📚 Papers processed: " ++ toString s.papers.length] }

/-! ## Theorems -/

/-- C3: `validate_pdf` returns `true` iff the file exists, its
(lower-cased) extension is `.pdf`, its size is greater than zero, its
content is readable and its first four bytes are the `%PDF` magic; a
read error or a zero-length file yields `false` (the function is total
into `Bool`, so it never raises); `TextExtractor.validate_pdf`
performs the identical check. -/
theorem validate_pdf_spec :
    (∀ f : PdfFile,
      PaperSearcher.validate_pdf f = true ↔
        (f.present = true ∧ strLower f.suffix = ".pdf" ∧ 0 < f.content.length ∧
         f.readError = false ∧ f.content.take 4 = pdfMagic))
  ∧ (∀ f : PdfFile, f.readError = true → PaperSearcher.validate_pdf f = false)
  ∧ (∀ f : PdfFile, f.content = [] → PaperSearcher.validate_pdf f = false)
  ∧ (∀ f : PdfFile, TextExtractor.validate_pdf f = PaperSearcher.validate_pdf f) := by
  refine ⟨?_, ?_, ?_, ?_⟩
  · intro f
    simp only [PaperSearcher.validate_pdf]
    split_ifs with h1 h2 h3 h4
    · simp [h1]
    · simp [h2]
    · simp [h3]
    · simp [h4]
    · simp only [decide_eq_true_eq]
      rw [not_not] at h2
      constructor
      · intro ht
        exact ⟨by simpa using h1, h2, Nat.pos_of_ne_zero h3, by simpa using h4, ht⟩
      · intro hc
        exact hc.2.2.2.2
  · intro f h
    simp only [PaperSearcher.validate_pdf, h]
    split_ifs <;> simp_all
  · intro f h
    simp only [PaperSearcher.validate_pdf, h]
    split_ifs <;> simp_all
  · intro f
    rfl

/-- Witness for C3 at concrete files: a well-formed minimal PDF
validates, and the same file with a read error does not. -/
theorem validate_pdf_spec_witness :
    PaperSearcher.validate_pdf
      ⟨true, ".pdf", [0x25, 0x50, 0x44, 0x46, 0x2d], false⟩ = true
  ∧ PaperSearcher.validate_pdf
      ⟨true, ".pdf", [0x25, 0x50, 0x44, 0x46, 0x2d], true⟩ = false :=
  ⟨(validate_pdf_spec.1 _).mpr (by decide), validate_pdf_spec.2.1 _ rfl⟩

/-- C5: an always-failing operation wrapped in
`@retry(stop=stop_after_attempt(3), wait=wait_exponential(multiplier=1, min=2, max=10))`
(the decorator on both `search_papers` and `download_pdf`) is attempted
exactly 3 times and no more, and the inter-attempt delay is
non-decreasing in the attempt number. -/
theorem retry_bound_spec :
    (∀ op : Nat → Option Unit, (∀ k, op k = none) →
        retryExec op 3 = (3, none))
  ∧ (∀ k : Nat,
        wait_exponential 1 2 10 k ≤ wait_exponential 1 2 10 (k + 1)) := by
  constructor
  · intro op h
    simp [retryExec, retryFrom, h]
  · intro k
    have hpow : (2 : Nat) ^ k ≤ 2 ^ (k + 1) :=
      Nat.pow_le_pow_right (by omega) (Nat.le_succ k)
    simp only [wait_exponential, one_mul, Nat.max_def, Nat.min_def]
    split_ifs <;> omega

/-- Witness for C5: the retry bound at the always-failing operation,
and the delays after attempts 1 and 2. -/
theorem retry_bound_spec_witness :
    retryExec (fun _ => (none : Option Unit)) 3 = (3, none)
  ∧ wait_exponential 1 2 10 1 ≤ wait_exponential 1 2 10 2 :=
  ⟨retry_bound_spec.1 _ (fun _ => rfl), retry_bound_spec.2 1⟩

/-- Helper: whenever `download_fresh` returns a path the file at the
path validates, and whenever it does not, no file remains. -/
theorem download_fresh_clean (pathSuffix : String) (net : Except Unit (List Nat)) :
    ((download_fresh pathSuffix net).returned = true →
      ∃ f, (download_fresh pathSuffix net).post = some f ∧
        PaperSearcher.validate_pdf f = true)
  ∧ ((download_fresh pathSuffix net).returned = false →
      (download_fresh pathSuffix net).post = none) := by
  cases net with
  | error e => simp [download_fresh]
  | ok content =>
    simp only [download_fresh]
    split_ifs with h
    · exact ⟨fun _ => ⟨_, rfl, h⟩, by simp⟩
    · simp

/-- Helper: a returned download path always holds a validated file. -/
theorem download_pdf_post_valid (pre : Option PdfFile) (pathSuffix : String)
    (net : Except Unit (List Nat))
    (h : (download_pdf pre pathSuffix net).returned = true) :
    ∃ f, (download_pdf pre pathSuffix net).post = some f ∧
      PaperSearcher.validate_pdf f = true := by
  cases pre with
  | none => exact (download_fresh_clean pathSuffix net).1 h
  | some f =>
    simp only [download_pdf] at h ⊢
    split_ifs with hv
    · exact ⟨f, rfl, hv⟩
    · rw [if_neg hv] at h
      exact (download_fresh_clean pathSuffix net).1 h

/-- Helper: when no path is returned, no file remains at the target
path. -/
theorem download_pdf_no_return_clean (pre : Option PdfFile) (pathSuffix : String)
    (net : Except Unit (List Nat))
    (h : (download_pdf pre pathSuffix net).returned = false) :
    (download_pdf pre pathSuffix net).post = none := by
  cases pre with
  | none => exact (download_fresh_clean pathSuffix net).2 h
  | some f =>
    simp only [download_pdf] at h ⊢
    split_ifs with hv
    · rw [if_pos hv] at h
      simp at h
    · rw [if_neg hv] at h
      exact (download_fresh_clean pathSuffix net).2 h

/-- C6: after each `download_pdf` invocation no invalid or partial
artifact persists at the paper's target path: a returned path holds a
file passing PDF validation, no returned path means no file remains,
and a pre-existing file failing validation is deleted before the fresh
download (the invocation then behaves exactly as a fresh download). -/
theorem download_no_invalid_artifact :
    ∀ (pre : Option PdfFile) (pathSuffix : String) (net : Except Unit (List Nat)),
      ((download_pdf pre pathSuffix net).returned = true →
        ∃ f, (download_pdf pre pathSuffix net).post = some f ∧
          PaperSearcher.validate_pdf f = true)
    ∧ ((download_pdf pre pathSuffix net).returned = false →
        (download_pdf pre pathSuffix net).post = none)
    ∧ (∀ f, pre = some f → PaperSearcher.validate_pdf f = false →
        download_pdf pre pathSuffix net = download_fresh pathSuffix net) := by
  intro pre pathSuffix net
  refine ⟨download_pdf_post_valid pre pathSuffix net,
          download_pdf_no_return_clean pre pathSuffix net, ?_⟩
  intro f hpre hinv
  subst hpre
  simp [download_pdf, hinv]

/-- Witness for C6: a concrete invalid pre-existing file (wrong magic)
together with a failing network call leaves no file and returns
nothing; the fresh-download equation holds at that input. -/
theorem download_no_invalid_artifact_witness :
    (download_pdf (some ⟨true, ".pdf", [0, 1], false⟩) ".pdf"
        (Except.error ())).post = none
  ∧ download_pdf (some ⟨true, ".pdf", [0, 1], false⟩) ".pdf" (Except.error ()) =
      download_fresh ".pdf" (Except.error ()) :=
  ⟨(download_no_invalid_artifact
      (some ⟨true, ".pdf", [0, 1], false⟩) ".pdf" (Except.error ())).2.1 (by decide),
   (download_no_invalid_artifact
      (some ⟨true, ".pdf", [0, 1], false⟩) ".pdf" (Except.error ())).2.2 _ rfl
      (by decide)⟩

/-- C7: invoking `download_pdf` again when the first invocation
returned a validated artifact performs zero network requests and
returns the same artifact (the file at the deterministic path is
untouched and its path is returned again). -/
theorem download_idempotent_resume :
    ∀ (pre : Option PdfFile) (pathSuffix : String)
      (net net2 : Except Unit (List Nat)),
      (download_pdf pre pathSuffix net).returned = true →
      download_pdf (download_pdf pre pathSuffix net).post pathSuffix net2 =
        ⟨(download_pdf pre pathSuffix net).post, true, false⟩ := by
  intro pre pathSuffix net net2 h
  obtain ⟨f, hpost, hval⟩ := download_pdf_post_valid pre pathSuffix net h
  rw [hpost]
  simp [download_pdf, hval]

/-- Witness for C7: re-running the download after a successful fresh
download of a valid PDF body returns the same artifact with no network
use. -/
theorem download_idempotent_resume_witness :
    download_pdf
      (download_pdf none ".pdf" (Except.ok [0x25, 0x50, 0x44, 0x46, 0x2d])).post
      ".pdf" (Except.error ()) =
    ⟨(download_pdf none ".pdf" (Except.ok [0x25, 0x50, 0x44, 0x46, 0x2d])).post,
      true, false⟩ :=
  download_idempotent_resume none ".pdf" (Except.ok [0x25, 0x50, 0x44, 0x46, 0x2d])
    (Except.error ()) (by decide)

/-- Helper: the `extract_insights` fallback loop returns the default
payload when every model call raises or yields empty text. -/
theorem extract_insights_loop_exhausted (parse : String → RawInsights) :
    ∀ responses : List ModelResponse,
      (∀ r ∈ responses, r = ModelResponse.exn ∨ r = ModelResponse.text "") →
      extract_insights_loop parse responses = get_default_insights := by
  intro responses
  induction responses with
  | nil => intro _; rfl
  | cons r rest ih =>
    intro h
    have hrest := fun x hx => h x (List.mem_cons_of_mem _ hx)
    rcases h r (List.mem_cons_self r rest) with h1 | h1 <;> subst h1 <;>
      simpa [extract_insights_loop] using ih hrest

/-- Helper: `generate_draft` raises (returns the error) when every
model call raises or yields empty text. -/
theorem generate_draft_exhausted :
    ∀ responses : List ModelResponse,
      (∀ r ∈ responses, r = ModelResponse.exn ∨ r = ModelResponse.text "") →
      generate_draft responses = Except.error "All models failed to generate draft" := by
  intro responses
  induction responses with
  | nil => intro _; rfl
  | cons r rest ih =>
    intro h
    have hrest := fun x hx => h x (List.mem_cons_of_mem _ hx)
    rcases h r (List.mem_cons_self r rest) with h1 | h1 <;> subst h1 <;>
      simpa [generate_draft] using ih hrest

/-- C4 counterexample: with every model of the fallback chain
returning empty text or raising, `DraftGenerator.generate_draft` does
not return a default payload — it raises `DraftGenerationError`
(modelled by `Except.error`), so an exception does escape to its
caller. -/
theorem fallback_exhaustion_counterexample :
    generate_draft
      [ModelResponse.text "", ModelResponse.exn, ModelResponse.text "",
       ModelResponse.text "", ModelResponse.text ""] =
      Except.error "All models failed to generate draft" := rfl

/-- C4 (amended): when every model of the fallback chain returns empty
text or raises, `PaperAnalyzer.extract_insights` returns the fixed
default payload (`_get_default_insights()`, whose `key_findings` is a
one-element placeholder and whose other fields are empty) without
raising, while `DraftGenerator.generate_draft` raises
`DraftGenerationError`; that exception is caught by its caller
`generate_review`, which converts it into a normal failure record with
no draft. -/
theorem fallback_exhaustion_behavior :
    (∀ (sections : List (String × String)) (parse : String → RawInsights)
       (responses : List ModelResponse),
        (∀ r ∈ responses, r = ModelResponse.exn ∨ r = ModelResponse.text "") →
        extract_insights sections parse responses = get_default_insights)
  ∧ (∀ responses : List ModelResponse,
        (∀ r ∈ responses, r = ModelResponse.exn ∨ r = ModelResponse.text "") →
        generate_draft responses =
          Except.error "All models failed to generate draft")
  ∧ (∀ (numAnalyses : Nat) (responses : List ModelResponse) (savedPath : String),
        (∀ r ∈ responses, r = ModelResponse.exn ∨ r = ModelResponse.text "") →
        (generate_review numAnalyses responses savedPath).success = false ∧
        (generate_review numAnalyses responses savedPath).draft = none) := by
  refine ⟨?_, generate_draft_exhausted, ?_⟩
  · intro sections parse responses h
    by_cases hs : sections.all (fun kv => kv.2 = "")
    · simp [extract_insights, hs]
    · simp only [extract_insights, hs, if_false]
      exact extract_insights_loop_exhausted parse responses h
  · intro numAnalyses responses savedPath h
    by_cases hn : numAnalyses = 0
    · simp [generate_review, hn]
    · simp [generate_review, hn, generate_draft_exhausted responses h]

/-- Witness for C4 (amended) at a concrete exhausted chain. -/
theorem fallback_exhaustion_behavior_witness :
    extract_insights [("abstract", "some text")] (fun _ => ⟨none, none, none, none⟩)
      [ModelResponse.text "", ModelResponse.exn] = get_default_insights
  ∧ generate_draft [ModelResponse.text "", ModelResponse.exn] =
      Except.error "All models failed to generate draft"
  ∧ (generate_review 2 [ModelResponse.text "", ModelResponse.exn] "p").success = false :=
  ⟨fallback_exhaustion_behavior.1 _ _ _ (by decide),
   fallback_exhaustion_behavior.2.1 _ (by decide),
   (fallback_exhaustion_behavior.2.2 2 _ "p" (by decide)).1⟩

/-- Helper: bound on the critique/revise cycle of the compiled graph,
by induction on the remaining revision budget. -/
theorem critiqueLoop_bound (inadequate : Nat → Bool) :
    ∀ (n rc : Nat), revisionCap - rc ≤ n →
      (critiqueLoop inadequate rc).1 ≤ (revisionCap - rc) + 1 ∧
      (critiqueLoop inadequate rc).2 ≤ revisionCap - rc := by
  intro n
  induction n with
  | zero =>
    intro rc h
    have hc : ¬ (rc < revisionCap ∧ inadequate rc = true) := by
      intro hcon
      omega
    rw [critiqueLoop, dif_neg hc]
    omega
  | succ n ih =>
    intro rc h
    rw [critiqueLoop]
    by_cases hc : rc < revisionCap ∧ inadequate rc = true
    · rw [dif_pos hc]
      have := ih (rc + 1) (by omega)
      simp only
      omega
    · rw [dif_neg hc]
      omega

/-- C1: the critique/revise feedback loop of the compiled graph
terminates — once `revision_count` reaches the cap (2), `revise_node`
dispatches to `final_draft` regardless of the critique outcome;
`revise_node` chooses `revise_paper` exactly when the count is below
the cap and the critique is inadequate; for every critique oracle the
loop performs at most `cap + 1` critique evaluations and enters
`revise_paper` at most `cap` times; and the unrolled loop of
`run_generate_only` also evaluates the critique at most `cap + 1`
times. -/
theorem revision_loop_terminates :
    (∀ (b : Bool) (s : RevState), revisionCap ≤ s.revision_count →
        revise_node b s = "final_draft")
  ∧ (∀ (b : Bool) (rc : Nat),
        revise_node b ⟨rc⟩ = "revise_paper" ↔ (rc < revisionCap ∧ b = true))
  ∧ (∀ inadequate : Nat → Bool,
        (critiqueLoop inadequate 0).1 ≤ revisionCap + 1 ∧
        (critiqueLoop inadequate 0).2 ≤ revisionCap)
  ∧ (∀ (inadequate : Nat → Bool) (rc : Nat),
        run_generate_only_critique_evals inadequate rc ≤ revisionCap + 1) := by
  refine ⟨?_, ?_, ?_, ?_⟩
  · intro b s h
    have hc : ¬ (s.revision_count < revisionCap ∧ b = true) := by
      intro hcon
      omega
    simp [revise_node, hc]
  · intro b rc
    simp only [revise_node]
    split_ifs with hc
    · simpa using hc
    · constructor
      · intro h
        exact absurd h (by decide)
      · intro h
        exact absurd h hc
  · intro inadequate
    have := critiqueLoop_bound inadequate revisionCap 0 (by omega)
    omega
  · intro inadequate rc
    simp only [run_generate_only_critique_evals]
    split_ifs <;> simp [revisionCap]

/-- Witness for C1: at the cap the controller finalizes even on an
inadequate critique; the always-inadequate oracle stays within the
bounds. -/
theorem revision_loop_terminates_witness :
    revise_node true ⟨2⟩ = "final_draft"
  ∧ (critiqueLoop (fun _ => true) 0).1 ≤ revisionCap + 1
  ∧ run_generate_only_critique_evals (fun _ => true) 0 ≤ revisionCap + 1 :=
  ⟨revision_loop_terminates.1 true ⟨2⟩ (by decide),
   (revision_loop_terminates.2.2.1 (fun _ => true)).1,
   revision_loop_terminates.2.2.2 (fun _ => true) 0⟩

/-- C2: once `error` is set, each subsequent stage node of app.py
(`extract_node`, `analyze_node`, `draft_node`) returns its input state
unchanged, whatever its collaborator would have produced; the terminal
`finalize_node` instead always runs and always appends a non-empty
terminal summary to the progress report. -/
theorem error_short_circuit :
    (∀ (s : PipelineState) (eR aR : Except String (List String))
        (dR : Except String ReviewResult),
      s.error.isSome = true →
        extract_node eR s = s ∧ analyze_node aR s = s ∧ draft_node dR s = s)
  ∧ (∀ s : PipelineState,
      (finalize_node s).progress ≠ [] ∧
      "📊 PIPELINE SUMMARY" ∈ (finalize_node s).progress) := by
  constructor
  · intro s eR aR dR h
    refine ⟨?_, ?_, ?_⟩ <;> simp [extract_node, analyze_node, draft_node, h]
  · intro s
    have hmem : "📊 PIPELINE SUMMARY" ∈ (finalize_node s).progress := by
      simp only [finalize_node]
      cases s.error <;> simp
    exact ⟨List.ne_nil_of_mem hmem, hmem⟩

/-- A concrete errored state used to witness the short-circuit. -/
def erroredState : PipelineState :=
  { topic := "graph neural networks", papers := [], search_success := false,
    search_message := "", extracted_paths := [], extraction_success := false,
    extraction_message := "", analysis_paths := [], analysis_success := false,
    analysis_message := "", draft := none, draft_path := none,
    draft_success := false, draft_message := "",
    error := some "No papers found with PDF links", progress := ["started"] }

/-- Witness for C2 at `erroredState`. -/
theorem error_short_circuit_witness :
    extract_node (Except.ok ["a.json"]) erroredState = erroredState
  ∧ analyze_node (Except.error "boom") erroredState = erroredState
  ∧ draft_node (Except.ok ⟨true, "m", some "d", some "p", some 1⟩) erroredState
      = erroredState
  ∧ "📊 PIPELINE SUMMARY" ∈ (finalize_node erroredState).progress :=
  ⟨(error_short_circuit.1 erroredState (.ok ["a.json"]) (.error "boom")
      (.ok ⟨true, "m", some "d", some "p", some 1⟩) rfl).1,
   (error_short_circuit.1 erroredState (.ok ["a.json"]) (.error "boom")
      (.ok ⟨true, "m", some "d", some "p", some 1⟩) rfl).2.1,
   (error_short_circuit.1 erroredState (.ok ["a.json"]) (.error "boom")
      (.ok ⟨true, "m", some "d", some "p", some 1⟩) rfl).2.2,
   (error_short_circuit.2 erroredState).2⟩

/-- Helper: a non-empty string has positive length. -/
theorem length_pos_of_ne_empty (s : String) (h : s ≠ "") : 0 < s.length := by
  cases s with
  | mk data =>
    cases data with
    | nil => exact absurd rfl h
    | cons c cs => simp [String.length]

/-- Helper: the accumulator length never shrinks along
`String.intercalate.go`. -/
theorem intercalate_go_length (sep : String) :
    ∀ (as : List String) (acc : String),
      acc.length ≤ (String.intercalate.go acc sep as).length := by
  intro as
  induction as with
  | nil => intro acc; exact Nat.le_refl _
  | cons a as ih =>
    intro acc
    calc acc.length ≤ (acc ++ sep ++ a).length := by
          simp only [String.length_append]
          omega
      _ ≤ _ := ih (acc ++ sep ++ a)

/-- Helper: joining a non-empty head with anything is non-empty. -/
theorem intercalate_ne_empty (a : String) (as : List String) (ha : a ≠ "") :
    String.intercalate "\n\n" (a :: as) ≠ "" := by
  intro hcon
  have h1 : a.length ≤ (String.intercalate "\n\n" (a :: as)).length :=
    intercalate_go_length "\n\n" as a
  rw [hcon] at h1
  have h2 := length_pos_of_ne_empty a ha
  have h0 : ("" : String).length = 0 := rfl
  rw [h0] at h1
  omega

/-- C8: for a valid PDF artifact, `extract_raw_text` raises
`TextExtractionError` (modelled by `Except.error`) iff no page yields
non-empty stripped text; otherwise it returns the texts of the
qualifying pages joined in page order with `"\n\n"`, and that result
is non-empty. -/
theorem extract_raw_text_spec :
    ∀ (f : PdfFile) (pageTexts : List String),
      TextExtractor.validate_pdf f = true →
        ((∃ e, extract_raw_text f pageTexts = Except.error e) ↔
          ∀ t ∈ pageTexts, pyStrip t = "")
      ∧ ((∃ t ∈ pageTexts, pyStrip t ≠ "") →
          extract_raw_text f pageTexts =
            Except.ok (String.intercalate "\n\n"
              (pageTexts.filter (fun t => pyStrip t ≠ ""))) ∧
          ∀ out, extract_raw_text f pageTexts = Except.ok out → out ≠ "") := by
  intro f pageTexts hv
  simp only [extract_raw_text, hv, Bool.true_eq_false, if_false]
  by_cases hL : pageTexts.filter (fun t => pyStrip t ≠ "") = []
  · constructor
    · simp only [hL, List.isEmpty_nil, if_true]
      constructor
      · intro _
        intro t ht
        by_contra hne
        have : t ∈ pageTexts.filter (fun t => pyStrip t ≠ "") :=
          List.mem_filter.mpr ⟨ht, by simpa using hne⟩
        rw [hL] at this
        simp at this
      · intro _
        exact ⟨"Text extraction failed: No text extracted from PDF", rfl⟩
    · rintro ⟨t, ht, hne⟩
      have : t ∈ pageTexts.filter (fun t => pyStrip t ≠ "") :=
        List.mem_filter.mpr ⟨ht, by simpa using hne⟩
      rw [hL] at this
      simp at this
  · have hE : (pageTexts.filter (fun t => pyStrip t ≠ "")).isEmpty = false := by
      obtain ⟨a, as, hcons⟩ := List.exists_cons_of_ne_nil hL
      rw [hcons]
      rfl
    simp only [hE, Bool.false_eq_true, if_false]
    constructor
    · constructor
      · rintro ⟨e, he⟩
        simp at he
      · intro hall
        exact absurd (List.filter_eq_nil_iff.mpr
          (by intro t ht; simpa using hall t ht)) hL
    · intro _
      refine ⟨by trivial, ?_⟩
      intro out hout
      obtain ⟨a, as, hcons⟩ := List.exists_cons_of_ne_nil hL
      have hamem : a ∈ pageTexts.filter (fun t => pyStrip t ≠ "") := by
        rw [hcons]; exact List.mem_cons_self a as
      have haS : pyStrip a ≠ "" := by
        have := (List.mem_filter.mp hamem).2
        simpa using this
      have ha : a ≠ "" := by
        intro hrfl
        exact haS (by rw [hrfl]; rfl)
      have := intercalate_ne_empty a as ha
      rw [hcons] at hout
      simp only [Except.ok.injEq] at hout
      rw [← hout]
      exact this

/-- Witness for C8 at a concrete valid PDF and concrete page texts. -/
theorem extract_raw_text_spec_witness :
    extract_raw_text ⟨true, ".pdf", [0x25, 0x50, 0x44, 0x46, 0x2d], false⟩
        ["", "Hello", " "] =
      Except.ok (String.intercalate "\n\n"
        ((["", "Hello", " "] : List String).filter (fun t => pyStrip t ≠ "")))
  ∧ (∃ e, extract_raw_text ⟨true, ".pdf", [0x25, 0x50, 0x44, 0x46, 0x2d], false⟩
        [" ", ""] = Except.error e) :=
  ⟨((extract_raw_text_spec _ ["", "Hello", " "] (by decide)).2 (by decide)).1,
   (extract_raw_text_spec _ [" ", ""] (by decide)).1.mpr (by decide)⟩

/-- Helper: `joinPara` on a list with a non-empty tail. -/
theorem joinPara_cons_of_ne_nil (x : List Char) (L : List (List Char)) (h : L ≠ []) :
    joinPara (x :: L) = x ++ '\n' :: '\n' :: joinPara L := by
  cases L with
  | nil => exact absurd rfl h
  | cons y ys => rfl

/-- Helper: `splitPara` never returns the empty list. -/
theorem splitPara_ne_nil (cs : List Char) : splitPara cs ≠ [] := by
  unfold splitPara
  split
  · simp
  · simp
  · split <;> simp

/-- Helper: `joinPara` is a left inverse of `splitPara`, matching the
Python identity `'\n\n'.join(text.split('\n\n')) == text`. -/
theorem joinPara_splitPara (cs : List Char) : joinPara (splitPara cs) = cs := by
  induction cs using splitPara.induct with
  | case1 => rfl
  | case2 rest ih =>
    rw [splitPara.eq_2, joinPara_cons_of_ne_nil _ _ (splitPara_ne_nil rest), ih]
    rfl
  | case3 c rest hne hnil ih => exact absurd hnil (splitPara_ne_nil rest)
  | case4 c rest hne h t hsplit ih =>
    rw [splitPara.eq_3 c rest hne, hsplit]
    rw [hsplit] at ih
    cases t with
    | nil =>
      simp only [joinPara] at ih ⊢
      rw [ih]
    | cons u us =>
      rw [joinPara_cons_of_ne_nil (c :: h) (u :: us) (by simp), List.cons_append]
      rw [joinPara_cons_of_ne_nil h (u :: us) (by simp)] at ih
      rw [ih]

/-- Helper: `joinPara` distributes over append of non-empty groups. -/
theorem joinPara_append (A B : List (List Char)) (hA : A ≠ []) (hB : B ≠ []) :
    joinPara (A ++ B) = joinPara A ++ '\n' :: '\n' :: joinPara B := by
  induction A with
  | nil => exact absurd rfl hA
  | cons x xs ih =>
    cases xs with
    | nil =>
      rw [List.singleton_append, joinPara_cons_of_ne_nil x B hB]
      rfl
    | cons y ys =>
      have hxs : (y :: ys : List (List Char)) ≠ [] := by simp
      rw [List.cons_append,
          joinPara_cons_of_ne_nil x ((y :: ys) ++ B) (by simp),
          joinPara_cons_of_ne_nil x (y :: ys) hxs, ih hxs]
      simp [List.append_assoc]

/-- Helper: the chunk accumulator never produces an empty chunk list
from a non-empty pending chunk. -/
theorem chunkAux_ne_nil (tok : List Char → Nat) (maxTokens : Nat) :
    ∀ (paras current : List (List Char)) (ct : Nat), current ≠ [] →
      chunkAux tok maxTokens paras current ct ≠ [] := by
  intro paras
  induction paras with
  | nil =>
    intro current ct h
    simp [chunkAux, h]
  | cons p rest ih =>
    intro current ct h
    simp only [chunkAux]
    split_ifs with hc
    · simp
    · exact ih (current ++ [p]) _ (by simp)

/-- Helper: chunking preserves the joined content of the pending chunk
followed by the remaining paragraphs. -/
theorem joinPara_chunkAux (tok : List Char → Nat) (maxTokens : Nat) :
    ∀ (paras current : List (List Char)) (ct : Nat),
      joinPara (chunkAux tok maxTokens paras current ct) =
        joinPara (current ++ paras) := by
  intro paras
  induction paras with
  | nil =>
    intro current ct
    simp only [chunkAux, List.append_nil]
    split_ifs with h
    · rw [h]
    · rfl
  | cons p rest ih =>
    intro current ct
    simp only [chunkAux]
    split_ifs with hc
    · have hne := chunkAux_ne_nil tok maxTokens rest [p] (tok p) (by simp)
      rw [joinPara_cons_of_ne_nil _ _ hne, ih [p] (tok p),
          joinPara_append current (p :: rest) hc.2 (by simp),
          List.singleton_append]
    · rw [ih (current ++ [p]) (ct + tok p), List.append_assoc,
          List.singleton_append]

/-- Tail form of the separator-join used to relate `joinPara` with
`String.intercalate.go`. -/
def joinTail : List (List Char) → List Char
  | [] => []
  | x :: xs => '\n' :: '\n' :: (x ++ joinTail xs)

/-- Helper: `joinPara` in head/tail form. -/
theorem joinPara_eq_cons_tail :
    ∀ (xs : List (List Char)) (x : List Char),
      joinPara (x :: xs) = x ++ joinTail xs := by
  intro xs
  induction xs with
  | nil =>
    intro x
    simp [joinPara, joinTail]
  | cons y ys ih =>
    intro x
    rw [joinPara_cons_of_ne_nil x (y :: ys) (by simp), ih y]
    simp [joinTail]

/-- Helper: `String.intercalate.go` over packed character lists. -/
theorem intercalate_go_mk :
    ∀ (l : List (List Char)) (acc : List Char),
      String.intercalate.go ⟨acc⟩ "\n\n" (l.map String.mk) =
        ⟨acc ++ joinTail l⟩ := by
  intro l
  induction l with
  | nil =>
    intro acc
    simp [String.intercalate.go, joinTail]
  | cons x xs ih =>
    intro acc
    show String.intercalate.go (⟨acc⟩ ++ "\n\n" ++ ⟨x⟩) "\n\n" (xs.map String.mk) = _
    have hacc : (⟨acc⟩ ++ "\n\n" ++ ⟨x⟩ : String) = ⟨(acc ++ ['\n', '\n']) ++ x⟩ := rfl
    rw [hacc, ih ((acc ++ ['\n', '\n']) ++ x)]
    simp [joinTail, List.append_assoc]

/-- Helper: `String.intercalate "\n\n"` agrees with `joinPara` through
`String.mk`. -/
theorem intercalate_mk (l : List (List Char)) :
    String.intercalate "\n\n" (l.map String.mk) = ⟨joinPara l⟩ := by
  cases l with
  | nil => rfl
  | cons x xs =>
    show String.intercalate.go ⟨x⟩ "\n\n" (xs.map String.mk) = _
    rw [intercalate_go_mk xs x, joinPara_eq_cons_tail xs x]

/-- C9: for every token-counting oracle, every input string and every
token budget, joining the chunk list returned by `chunk_text` with
`"\n\n"` reconstructs the input string exactly: chunking is a lossless
partition of the text at paragraph boundaries. -/
theorem chunk_text_reconstructs :
    ∀ (tok : String → Nat) (text : String) (maxTokens : Nat),
      String.intercalate "\n\n" (chunk_text tok text maxTokens) = text := by
  intro tok text maxTokens
  simp only [chunk_text]
  rw [intercalate_mk, joinPara_chunkAux, List.nil_append, joinPara_splitPara]

/-- Helper: membership in `takeWhile` implies membership in the list. -/
theorem mem_of_mem_takeWhile {p : Char → Bool} {l : List Char} {c : Char}
    (h : c ∈ l.takeWhile p) : c ∈ l :=
  (List.takeWhile_prefix p).subset h

/-- Helper: membership in `dropWhile` implies membership in the list. -/
theorem mem_of_mem_dropWhile {p : Char → Bool} {l : List Char} {c : Char}
    (h : c ∈ l.dropWhile p) : c ∈ l :=
  (List.dropWhile_suffix p).subset h

/-- Helper: every character of the rsplit/ellipsis rebuild comes from
the cleaned name or is a dot. -/
theorem truncateName_mem (cleaned : List Char) :
    ∀ c ∈ truncateName cleaned, c ∈ cleaned ∨ c = '.' := by
  intro c hc
  have hname : ∀ {x : Char},
      x ∈ List.take 195
        ((List.drop 1 (cleaned.reverse.dropWhile (fun ch => ch ≠ '.'))).reverse) →
      x ∈ cleaned := by
    intro x hx
    have h5 := List.take_subset _ _ hx
    rw [List.mem_reverse] at h5
    have h6 := List.drop_subset _ _ h5
    have h7 := mem_of_mem_dropWhile h6
    rwa [List.mem_reverse] at h7
  simp only [truncateName] at hc
  split_ifs at hc with hdot he
  · rcases List.mem_append.mp hc with h1 | h2
    · rcases List.mem_append.mp h1 with h3 | h4
      · exact Or.inl (hname h3)
      · right
        simpa using h4
    · simp at h2
  · rcases List.mem_append.mp hc with h1 | h2
    · rcases List.mem_append.mp h1 with h3 | h4
      · exact Or.inl (hname h3)
      · right
        simpa using h4
    · rcases List.mem_cons.mp h2 with h3 | h3
      · exact Or.inr h3
      · left
        have h4 : c ∈ cleaned.reverse.takeWhile (fun ch => ch ≠ '.') := by
          rwa [List.mem_reverse] at h3
        have h5 := mem_of_mem_takeWhile h4
        rwa [List.mem_reverse] at h5
  · rcases List.mem_append.mp hc with h1 | h2
    · exact Or.inl (List.take_subset _ _ h1)
    · right
      simpa using h2

/-- Helper: the rsplit/ellipsis rebuild is at most
`199 + |extension segment|` characters. -/
theorem truncateName_length (cleaned : List Char) :
    (truncateName cleaned).length ≤
      199 + (cleaned.reverse.takeWhile (fun c => c ≠ '.')).length := by
  have ht := List.length_take_le 195
    ((List.drop 1 (cleaned.reverse.dropWhile (fun c => c ≠ '.'))).reverse)
  simp only [truncateName]
  split_ifs with hdot he
  · simp only [List.length_append, List.length_cons, List.length_nil]
    omega
  · simp only [List.length_append, List.length_cons, List.length_nil,
      List.length_reverse]
    omega
  · simp only [List.length_append, List.length_cons, List.length_nil]
    have ht2 := List.length_take_le 195 cleaned
    omega

/-- Helper: the substitution touches dots nowhere: `sanitizeChar`
maps a character to a dot only if it was a dot. -/
theorem sanitizeChar_eq_dot_iff (c : Char) : sanitizeChar c = '.' ↔ c = '.' := by
  by_cases h : c ∈ invalidChars
  · have hdotNot : ('.' : Char) ∉ invalidChars := by decide
    simp only [sanitizeChar, if_pos h]
    constructor
    · intro hu
      exact absurd hu (by decide)
    · intro hcd
      exact absurd (hcd ▸ h) hdotNot
  · simp [sanitizeChar, h]

/-- Helper: the characters substituted in are never invalid. -/
theorem mem_cleaned_not_invalid (s : String) :
    ∀ c ∈ s.data.map sanitizeChar, c ∉ invalidChars := by
  intro c hc
  rcases List.mem_map.mp hc with ⟨a, _, rfl⟩
  by_cases h : a ∈ invalidChars
  · simpa [sanitizeChar, h] using (by decide : ('_' : Char) ∉ invalidChars)
  · simp only [sanitizeChar, if_neg h]
    exact h

/-- Helper: the extension segment of the cleaned name has the same
length as the extension segment of the input. -/
theorem cleaned_ext_length (s : String) :
    ((s.data.map sanitizeChar).reverse.takeWhile (fun c => c ≠ '.')).length =
      (s.data.reverse.takeWhile (fun c => c ≠ '.')).length := by
  have hfun : ((fun c => decide (c ≠ '.')) ∘ sanitizeChar) =
      (fun c : Char => decide (c ≠ '.')) := by
    funext a
    simp [Function.comp, sanitizeChar_eq_dot_iff]
  rw [← List.map_reverse, List.takeWhile_map, hfun, List.length_map]

/-- Helper: dots survive the substitution exactly. -/
theorem dot_mem_cleaned_iff (s : String) :
    '.' ∈ s.data.map sanitizeChar ↔ '.' ∈ s.data := by
  constructor
  · intro h
    rcases List.mem_map.mp h with ⟨a, ha, haeq⟩
    rwa [← (sanitizeChar_eq_dot_iff a).mp haeq]
  · intro h
    exact List.mem_map.mpr ⟨'.', h, (sanitizeChar_eq_dot_iff '.').mpr rfl⟩

/-- The concrete input refuting the 200-character bound: a one-letter
stem, a dot, and a 200-character extension. -/
def c10Input : String := ⟨'a' :: '.' :: List.replicate 200 'b'⟩

set_option maxRecDepth 8000 in
/-- C10 counterexample: `sanitize_filename` can return a string longer
than 200 characters — on `c10Input` (202 characters) the rsplit keeps
the whole 200-character extension after the ellipsis, producing 205
characters. -/
theorem sanitize_filename_counterexample :
    ¬ ((sanitize_filename c10Input).length ≤ 200) := by decide

/-- C10 (amended): for every input string, `sanitize_filename` returns
a string containing none of the characters `<>:"/\|?*`; its length is
at most `max 200 (199 + e)` where `e` is the length of the input's
extension (the segment after the last dot, empty if no dot) — in
particular the 200 bound holds whenever that extension has at most one
character, but a longer extension survives truncation in full. -/
theorem sanitize_filename_amended :
    ∀ s : String, noInvalid (sanitize_filename s) = true ∧
      (sanitize_filename s).length ≤ Nat.max 200 (199 + extLen s) := by
  intro s
  constructor
  · simp only [noInvalid, List.all_eq_true, decide_eq_true_eq]
    intro c hc
    simp only [sanitize_filename] at hc
    split_ifs at hc with hlen
    · rcases truncateName_mem _ c hc with h | h
      · exact mem_cleaned_not_invalid s c h
      · subst h
        decide
    · exact mem_cleaned_not_invalid s c hc
  · simp only [sanitize_filename]
    split_ifs with hlen
    · show (truncateName (s.data.map sanitizeChar)).length ≤ _
      have hb := truncateName_length (s.data.map sanitizeChar)
      rw [cleaned_ext_length s] at hb
      by_cases hdot : '.' ∈ s.data
      · have hext : extLen s = (s.data.reverse.takeWhile (fun c => c ≠ '.')).length := by
          unfold extLen
          rw [if_pos hdot]
        rw [hext]
        exact hb.trans (Nat.le_max_right _ _)
      · have hnodot : ¬ '.' ∈ s.data.map sanitizeChar := by
          rw [dot_mem_cleaned_iff]
          exact hdot
        have h198 : (truncateName (s.data.map sanitizeChar)).length ≤ 198 := by
          simp only [truncateName, if_neg hnodot, List.length_append,
            List.length_cons, List.length_nil]
          have := List.length_take_le 195 (s.data.map sanitizeChar)
          omega
        exact h198.trans ((by omega : (198 : Nat) ≤ 200).trans (Nat.le_max_left _ _))
    · show (s.data.map sanitizeChar).length ≤ _
      exact (by omega : (s.data.map sanitizeChar).length ≤ 200).trans
        (Nat.le_max_left _ _)

end AIReview
